import Mathlib

/-!
Verification of the group-0 linearization core: state-ID generation,
state-machine apply, submission retry loop, the k/v query engine,
command serialization and the k/v query compiler, embedded from the
repository sources (`service/raft/raft_group0_client.cc`,
`service/raft/group0_state_machine.cc`, `raft/group0_tables/lang.cc`,
`raft/group0_tables/query_result.hh`).
-/

/-- Opaque byte strings: keys, values, descriptions and addresses are
modelled as lists of naturals (one per byte). -/
abbrev GBytes := List Nat

/-- A group-0 state ID (a timeuuid). Modelled from the spec: a state ID
encodes a microsecond timestamp in the order-significant portion plus a
random tail; the total order is by embedded timestamp first, then tail.
The UUID type itself (`utils::UUID`) is outside `src/`. -/
structure StateId where
  micros : Int
  tail : Nat
deriving DecidableEq, Repr

/-- The zero UUID `utils::UUID\x7b\x7d`, used as "no predecessor" / empty history. -/
def zeroStateId : StateId := ⟨0, 0⟩

/-- Modelled from the spec: the timeuuid total order — by embedded
microsecond timestamp, ties broken by the random tail. -/
def stateIdLt (a b : StateId) : Prop :=
  a.micros < b.micros ∨ (a.micros = b.micros ∧ a.tail < b.tail)

instance (a b : StateId) : Decidable (stateIdLt a b) := by
  unfold stateIdLt; infer_instance

/-- `generate_group0_state_id` from `raft_group0_client.cc`: take the
current timestamp `now`; if the predecessor is non-zero and `now` does not
exceed the predecessor's embedded timestamp, bump to predecessor + 1; wrap
with a random tail (`get_random_time_UUID_from_micros`). -/
def generate_group0_state_id (now : Int) (randomTail : Nat) (prev : StateId) : StateId :=
  let ts := now
  let ts :=
    if prev ≠ zeroStateId then
      let lower_bound := prev.micros
      if ts ≤ lower_bound then lower_bound + 1 else ts
    else ts
  ⟨ts, randomTail⟩

/-- A cell of the single-column `group0_kv_store` row: a value plus its
write timestamp. -/
structure Cell where
  value : GBytes
  ts : Int
deriving DecidableEq, Repr

/-- The `system.group0_kv_store` table: one row (one `value` cell) per
partition key. -/
abbrev KvStore := List (GBytes × Cell)

/-- Partition lookup (`query_mutations_locally` on the singular range):
the cell of the row at `key`, or `none` when the partition is absent. -/
def kvLookup : KvStore → GBytes → Option Cell
  | [], _ => none
  | (k, c) :: rest, key => if k = key then some c else kvLookup rest key

/-- Effect of `mutate_locally` with a mutation that sets the `value`
cell of the row at `key`: replace the cell, or create the row. -/
def kvInsert : KvStore → GBytes → Cell → KvStore
  | [], key, c => [(key, c)]
  | (k, c0) :: rest, key, c =>
    if k = key then (k, c) :: rest else (k, c0) :: kvInsert rest key c

/-- The k/v query DSL (`raft/group0_tables/lang.hh`): `select_query` or
`update_query` with an optional value condition. -/
inductive TableQuery
  | select_query (key : GBytes)
  | update_query (key : GBytes) (new_value : GBytes) (value_condition : Option GBytes)
deriving DecidableEq, Repr

/-- The k/v query result variants (`raft/group0_tables/query_result.hh`). -/
inductive QueryResult
  | query_result_select (value : Option GBytes)
  | query_result_conditional_update (is_applied : Bool) (previous_value : Option GBytes)
  | query_result_none
deriving DecidableEq, Repr

/-- A write performed while applying one command: a k/v-table mutation,
a schema merge, or the history-table append. -/
inductive WriteEvent
  | kvMutation (key : GBytes) (cell : Cell)
  | schemaMerge (origin : GBytes) (mutations : List GBytes)
  | historyAppend (id : StateId)
deriving DecidableEq, Repr

/-- `execute_group0_table_query` from `group0_state_machine.cc`.
Returns the store after the query, the list of k/v mutations written
(`mutate_locally` calls), and the query result.
`newStateIdMicros` is `micros_timestamp(cmd.new_state_id)`. -/
def execute_group0_table_query (store : KvStore) (newStateIdMicros : Int) :
    TableQuery → KvStore × List WriteEvent × QueryResult
  | .select_query key =>
    match kvLookup store key with
    | none => (store, [], .query_result_select none)
    | some cell => (store, [], .query_result_select (some cell.value))
  | .update_query key new_value value_condition =>
    match kvLookup store key with
    | some cell =>
      if value_condition = none ∨ value_condition = some cell.value then
        let ts := max newStateIdMicros (cell.ts + 1)
        (kvInsert store key ⟨new_value, ts⟩, [.kvMutation key ⟨new_value, ts⟩],
         .query_result_none)
      else
        (store, [], .query_result_none)
    | none =>
      if value_condition = none then
        let ts := newStateIdMicros
        (kvInsert store key ⟨new_value, ts⟩, [.kvMutation key ⟨new_value, ts⟩],
         .query_result_none)
      else
        (store, [], .query_result_none)

/-- The `change` variant of a group-0 command: a schema mutation batch or
a k/v table query (`group0_state_machine.hh` via its uses in `apply`). -/
inductive Change
  | schema_change (mutations : List GBytes)
  | table_query (q : TableQuery)
deriving DecidableEq, Repr

/-- The history-append mutation carried inside a command
(`make_group0_history_state_id_mutation(state_id, gc_duration, description)`):
it records the state ID together with GC metadata and a description. -/
structure HistoryMutation where
  state_id : StateId
  gc_after : Int
  description : GBytes
deriving DecidableEq, Repr

/-- The command crossing the replicated log (`group0_command`), with the
fields used by `prepare_command` and `apply`. -/
structure Group0Command where
  change : Change
  history_append : HistoryMutation
  prev_state_id : Option StateId
  new_state_id : StateId
  creator_addr : GBytes
  creator_id : Nat
deriving DecidableEq, Repr

/-- The node-local state touched by `group0_state_machine::apply`: the
k/v table, the history table (in append order), the merged schema batches,
and the query-result side channel. -/
structure NodeState where
  kv : KvStore
  history : List StateId
  schemaState : List (GBytes × List GBytes)
  results : List (StateId × QueryResult)
deriving DecidableEq, Repr

/-- Modelled from the spec: `history.last()`
(`get_last_group0_state_id`, not under `src/`) returns the state ID of
the most recent history entry, or the zero ID if the table is empty. -/
def lastStateId (history : List StateId) : StateId :=
  (history.getLast?).getD zeroStateId

/-- Modelled from the spec: `history.contains(id)`
(`group0_history_contains`, not under `src/`) checks membership of a
state ID in the history table. -/
def historyContains (history : List StateId) (id : StateId) : Bool :=
  history.contains id

/-- Step 5 of `apply`: dispatch `cmd.change` — schema batch to the
schema-merge engine (with the creator address as origin), k/v query to
`execute_group0_table_query` with the result stored in the side channel
under `cmd.new_state_id`. Returns the new state and the writes made. -/
def applyChange (st : NodeState) (cmd : Group0Command) : NodeState × List WriteEvent :=
  match cmd.change with
  | .schema_change muts =>
    ({ st with schemaState := st.schemaState ++ [(cmd.creator_addr, muts)] },
     [.schemaMerge cmd.creator_addr muts])
  | .table_query q =>
    let r := execute_group0_table_query st.kv cmd.new_state_id.micros q
    ({ st with kv := r.1, results := st.results ++ [(cmd.new_state_id, r.2.2)] },
     r.2.1)

/-- Steps 5–6 of `apply` for a command that passed the `prev_state_id`
check: apply the change, then apply the `history_append` mutation. -/
def applyAdmitted (st : NodeState) (cmd : Group0Command) : NodeState × List WriteEvent :=
  let r := applyChange st cmd
  ({ r.1 with history := r.1.history ++ [cmd.history_append.state_id] },
   r.2 ++ [.historyAppend cmd.history_append.state_id])

/-- One iteration of the loop in `group0_state_machine::apply`: if
`prev_state_id` is present and differs from the last group-0 state ID in
the history table, the command is a no-op (`continue`); otherwise the
change and the history append are applied. -/
def applyOne (st : NodeState) (cmd : Group0Command) : NodeState × List WriteEvent :=
  match cmd.prev_state_id with
  | some p =>
    if p ≠ lastStateId st.history then (st, [])
    else applyAdmitted st cmd
  | none => applyAdmitted st cmd

/-- `group0_state_machine::apply` over a batch of committed commands, in
order. -/
def group0_state_machine_apply (st : NodeState) : List Group0Command → NodeState
  | [] => st
  | c :: rest => group0_state_machine_apply (applyOne st c).1 rest

/-- The error kinds raised by the replicated log's `add_entry`
(`raft::dropped_entry`, `raft::commit_status_unknown`,
`raft::not_a_leader`, or any other error). -/
inductive RaftError
  | dropped_entry
  | commit_status_unknown
  | not_a_leader
  | other (e : Nat)
deriving DecidableEq, Repr

/-- One response of `_raft_gr.group0().add_entry(cmd, wait_type::applied)`:
the command was applied, or an error was thrown. -/
inductive LogResponse
  | applied
  | failed (e : RaftError)
deriving DecidableEq, Repr

/-- Outcome of the `do/while(retry)` submission loop. `stillRetrying`
means the modelled response list was exhausted while the loop would have
retried once more. -/
inductive SubmitOutcome
  | success
  | surfaced (e : RaftError)
  | stillRetrying
deriving DecidableEq, Repr

/-- The `do/while(retry)` loop shared by `add_entry` and
`add_entry_unguarded`: `dropped_entry` and `commit_status_unknown` set
`retry = true` and loop again; `not_a_leader` is rethrown; any other
error propagates; success exits the loop. -/
def submitRetryLoop : List LogResponse → SubmitOutcome
  | [] => .stillRetrying
  | .applied :: _ => .success
  | .failed .dropped_entry :: rest => submitRetryLoop rest
  | .failed .commit_status_unknown :: rest => submitRetryLoop rest
  | .failed .not_a_leader :: _ => .surfaced .not_a_leader
  | .failed (.other e) :: _ => .surfaced (.other e)

/-- Outcome of `raft_group0_client::add_entry(_unguarded)` as observed by
the caller. -/
inductive AddEntryOutcome
  | ok
  | group0_concurrent_modification
  | raftFailure (e : RaftError)
  | pending
deriving DecidableEq, Repr

/-- `raft_group0_client::add_entry` (guarded), after serialization and
releasing the read-apply mutex: run the retry loop; once the log reports
the command applied, succeed iff `group0_history_contains(new_state_id)`,
else throw `group0_concurrent_modification`. `historyAfter` is this
node's history table when the loop returns. -/
def add_entry (responses : List LogResponse) (historyAfter : List StateId)
    (new_group0_state_id : StateId) : AddEntryOutcome :=
  match submitRetryLoop responses with
  | .success =>
    if historyContains historyAfter new_group0_state_id then .ok
    else .group0_concurrent_modification
  | .surfaced e => .raftFailure e
  | .stillRetrying => .pending

/-- `raft_group0_client::add_entry_unguarded`: the same retry loop, with
no history post-check. -/
def add_entry_unguarded (responses : List LogResponse) : AddEntryOutcome :=
  match submitRetryLoop responses with
  | .success => .ok
  | .surfaced e => .raftFailure e
  | .stillRetrying => .pending

/-- Modelled from the spec: the log payload is a stable tagged-union
encoding of the command record (`ser::serialize` and the IDL-generated
codecs are not under `src/`). Symbols of the payload alphabet are
naturals. An integer is a sign tag followed by its magnitude. -/
def encodeInt : Int → List Nat
  | .ofNat n => [0, n]
  | .negSucc n => [1, n]

/-- Decoder for `encodeInt`; consumes a prefix of the symbol list. -/
def decodeInt : List Nat → Option (Int × List Nat)
  | 0 :: n :: rest => some (.ofNat n, rest)
  | 1 :: n :: rest => some (.negSucc n, rest)
  | _ => none

/-- Reads exactly `n` symbols as an opaque byte string. -/
def decodeBytesAux : Nat → List Nat → Option (GBytes × List Nat)
  | 0, rest => some ([], rest)
  | _ + 1, [] => none
  | n + 1, x :: rest =>
    match decodeBytesAux n rest with
    | some (b, r) => some (x :: b, r)
    | none => none

/-- Modelled from the spec: byte strings are length-prefixed on the wire. -/
def encodeBytes (b : GBytes) : List Nat := b.length :: b

/-- Decoder for `encodeBytes`. -/
def decodeBytes : List Nat → Option (GBytes × List Nat)
  | n :: rest => decodeBytesAux n rest
  | [] => none

/-- Modelled from the spec: a state ID is its microsecond timestamp and
random tail. -/
def encodeStateId (s : StateId) : List Nat := encodeInt s.micros ++ [s.tail]

/-- Decoder for `encodeStateId`. -/
def decodeStateId (l : List Nat) : Option (StateId × List Nat) :=
  match decodeInt l with
  | some (m, t :: rest) => some (⟨m, t⟩, rest)
  | _ => none

/-- Modelled from the spec: optional fields carry a presence tag. -/
def encodeOptStateId : Option StateId → List Nat
  | none => [0]
  | some s => 1 :: encodeStateId s

/-- Decoder for `encodeOptStateId`. -/
def decodeOptStateId : List Nat → Option (Option StateId × List Nat)
  | 0 :: rest => some (none, rest)
  | 1 :: rest =>
    match decodeStateId rest with
    | some (s, r) => some (some s, r)
    | none => none
  | _ => none

/-- Modelled from the spec: optional byte strings carry a presence tag. -/
def encodeOptBytes : Option GBytes → List Nat
  | none => [0]
  | some b => 1 :: encodeBytes b

/-- Decoder for `encodeOptBytes`. -/
def decodeOptBytes : List Nat → Option (Option GBytes × List Nat)
  | 0 :: rest => some (none, rest)
  | 1 :: rest =>
    match decodeBytes rest with
    | some (b, r) => some (some b, r)
    | none => none
  | _ => none

/-- Modelled from the spec: the k/v query variant is a tagged union of
`select_query` and `update_query`. -/
def encodeTableQuery : TableQuery → List Nat
  | .select_query key => 0 :: encodeBytes key
  | .update_query key new_value value_condition =>
    1 :: encodeBytes key ++ encodeBytes new_value ++ encodeOptBytes value_condition

/-- Decoder for `encodeTableQuery`. -/
def decodeTableQuery : List Nat → Option (TableQuery × List Nat)
  | 0 :: rest =>
    match decodeBytes rest with
    | some (key, r) => some (.select_query key, r)
    | none => none
  | 1 :: rest =>
    match decodeBytes rest with
    | some (key, r1) =>
      match decodeBytes r1 with
      | some (nv, r2) =>
        match decodeOptBytes r2 with
        | some (vc, r3) => some (.update_query key nv vc, r3)
        | none => none
      | none => none
    | none => none
  | _ => none

/-- Modelled from the spec: a schema-mutation batch is a length-prefixed
list of byte strings. -/
def encodeBytesList (l : List GBytes) : List Nat :=
  l.length :: (l.map encodeBytes).flatten

/-- Reads exactly `n` byte strings. -/
def decodeBytesListAux : Nat → List Nat → Option (List GBytes × List Nat)
  | 0, rest => some ([], rest)
  | n + 1, l =>
    match decodeBytes l with
    | some (b, r) =>
      match decodeBytesListAux n r with
      | some (bs, r2) => some (b :: bs, r2)
      | none => none
    | none => none

/-- Decoder for `encodeBytesList`. -/
def decodeBytesList : List Nat → Option (List GBytes × List Nat)
  | n :: rest => decodeBytesListAux n rest
  | [] => none

/-- Modelled from the spec: the `change` field is a tagged union of a
schema-mutation batch and a k/v query. -/
def encodeChange : Change → List Nat
  | .schema_change muts => 0 :: encodeBytesList muts
  | .table_query q => 1 :: encodeTableQuery q

/-- Decoder for `encodeChange`. -/
def decodeChange : List Nat → Option (Change × List Nat)
  | 0 :: rest =>
    match decodeBytesList rest with
    | some (muts, r) => some (.schema_change muts, r)
    | none => none
  | 1 :: rest =>
    match decodeTableQuery rest with
    | some (q, r) => some (.table_query q, r)
    | none => none
  | _ => none

/-- Modelled from the spec: the history-append mutation carries the state
ID, the GC duration and the description. -/
def encodeHistoryMutation (h : HistoryMutation) : List Nat :=
  encodeStateId h.state_id ++ encodeInt h.gc_after ++ encodeBytes h.description

/-- Decoder for `encodeHistoryMutation`. -/
def decodeHistoryMutation (l : List Nat) : Option (HistoryMutation × List Nat) :=
  match decodeStateId l with
  | some (sid, r1) =>
    match decodeInt r1 with
    | some (gc, r2) =>
      match decodeBytes r2 with
      | some (d, r3) => some (⟨sid, gc, d⟩, r3)
      | none => none
    | none => none
  | none => none

/-- Modelled from the spec: `ser::serialize` of a `group0_command` — a
stable concatenation of the encoded command fields. -/
def serializeCommand (c : Group0Command) : List Nat :=
  encodeChange c.change ++ encodeHistoryMutation c.history_append ++
  encodeOptStateId c.prev_state_id ++ encodeStateId c.new_state_id ++
  encodeBytes c.creator_addr ++ [c.creator_id]

/-- Modelled from the spec: `ser::deserialize` of a `group0_command`. -/
def deserializeCommand (l : List Nat) : Option Group0Command :=
  match decodeChange l with
  | some (chng, r1) =>
    match decodeHistoryMutation r1 with
    | some (ha, r2) =>
      match decodeOptStateId r2 with
      | some (prev, r3) =>
        match decodeStateId r3 with
        | some (nsid, r4) =>
          match decodeBytes r4 with
          | some (addr, r5) =>
            match r5 with
            | cid :: _ => some ⟨chng, ha, prev, nsid, addr, cid⟩
            | [] => none
          | none => none
        | none => none
      | none => none
    | none => none
  | none => none

/-- CQL binary operators relevant to the compiler (`cql3::expr::oper_t`). -/
inductive Oper
  | EQ
  | NEQ
  | LT
  | GT
deriving DecidableEq, Repr

/-- Column kinds (`column_kind`). -/
inductive ColumnKind
  | partition_key
  | clustering_key
  | regular_column
deriving DecidableEq, Repr

/-- The CQL expression nodes inspected by `lang.cc` via
`cql3::expr::as_if`: conjunctions, binary operators, column references,
constants; `untyped` stands for every other expression node (on which
`as_if` returns null). -/
inductive CqlExpr
  | conjunction (children : List CqlExpr)
  | binary_operator (op : Oper) (lhs rhs : CqlExpr)
  | column_value (kind : ColumnKind) (name : GBytes)
  | constant (value : GBytes)
  | untyped (i : Nat)

/-- The selection of a `primary_key_select_statement` as inspected by
`is_selecting_only_value`: triviality flag and selected column names. -/
structure Selection where
  is_trivial : Bool
  columns : List GBytes
deriving DecidableEq, Repr

/-- A `primary_key_select_statement` (the pieces `compile` reads). -/
structure SelectStatement where
  partition_key_restrictions : CqlExpr
  selection : Selection

/-- One entry of `get_regular_conditions()`: an operation and an optional
value expression. -/
structure CqlCondition where
  op : Oper
  value : Option CqlExpr

/-- A `modification_statement` (the pieces `compile` reads): the
partition-key restrictions, the column operations' expressions
(`get_column_operations()[i]->get_expression()`), and the IF conditions. -/
structure ModificationStatement where
  partition_key_restrictions : CqlExpr
  column_operations : List (Option CqlExpr)
  regular_conditions : List CqlCondition

/-- The statement kinds `compile` dynamic-casts between; `otherStmt` is
any statement that is neither. -/
inductive CqlStatement
  | selectStmt (s : SelectStatement)
  | modificationStmt (m : ModificationStatement)
  | otherStmt (i : Nat)

/-- The invalid-request errors of `lang.cc`: the
`unsupported_operation_error` subclass, and the plain invalid-request
thrown by `execute` ("executing queries on group0_kv_store is currently
not implemented"). -/
inductive InvalidRequest
  | unsupported_operation
  | not_implemented
deriving DecidableEq, Repr

/-- ASCII bytes of the column name `value`. -/
def valueColumnName : GBytes := [118, 97, 108, 117, 101]

/-- `get_key` from `lang.cc`: the restriction must be a conjunction with
exactly one child, that child a binary operator whose lhs is a
partition-key column, whose rhs is a constant, and whose operation is
equality; anything else raises `unsupported_operation_error`. -/
def get_key : CqlExpr → Except InvalidRequest GBytes
  | .conjunction [.binary_operator op lhs rhs] =>
    match lhs, rhs with
    | .column_value kind _, .constant v =>
      if kind = .partition_key ∧ op = .EQ then .ok v
      else .error .unsupported_operation
    | _, _ => .error .unsupported_operation
  | _ => .error .unsupported_operation

/-- `is_selecting_only_value` from `lang.cc`. -/
def is_selecting_only_value (s : Selection) : Bool :=
  s.is_trivial && s.columns.length == 1 && s.columns.headD [] == valueColumnName

/-- `get_new_value` from `lang.cc`: exactly one column operation, its
expression present and a constant; anything else raises
`unsupported_operation_error`. -/
def get_new_value (ops : List (Option CqlExpr)) : Except InvalidRequest GBytes :=
  match ops with
  | [some (.constant v)] => .ok v
  | _ => .error .unsupported_operation

/-- `get_value_condition` from `lang.cc`: no condition means
unconditional; more than one raises; the single condition must carry a
value, use equality, and the value must be a constant. -/
def get_value_condition (conds : List CqlCondition) : Except InvalidRequest (Option GBytes) :=
  match conds with
  | [] => .ok none
  | [c] =>
    match c.value, c.op with
    | some (.constant v), .EQ => .ok (some v)
    | _, _ => .error .unsupported_operation
  | _ => .error .unsupported_operation

/-- `compile` from `lang.cc`: a select statement must select only
`value` and yields `select_query`; a modification statement yields
`update_query\x7bkey, new_value, value_condition\x7d`; any other statement is
unsupported. -/
def compile : CqlStatement → Except InvalidRequest TableQuery
  | .selectStmt s =>
    if is_selecting_only_value s.selection then
      match get_key s.partition_key_restrictions with
      | .ok k => .ok (.select_query k)
      | .error e => .error e
    else .error .unsupported_operation
  | .modificationStmt m =>
    match get_key m.partition_key_restrictions with
    | .ok k =>
      match get_new_value m.column_operations with
      | .ok v =>
        match get_value_condition m.regular_conditions with
        | .ok c => .ok (.update_query k v c)
        | .error e => .error e
      | .error e => .error e
    | .error e => .error e
  | .otherStmt _ => .error .unsupported_operation

/-- `execute` from `lang.cc`: compile the statement, then throw
invalid-request "executing queries on group0_kv_store is currently not
implemented"; a compile failure propagates instead. -/
def group0_tables_execute (stmt : CqlStatement) : Except InvalidRequest Unit :=
  match compile stmt with
  | .ok _ => .error .not_implemented
  | .error e => .error e

/-- The update-statement shape the spec's words call supported, for
comparison with `compile` (refinement): exactly one column assignment of
a constant, at most one `IF value = constant` condition, and a partition
key restricted by a single equality of a partition-key column to a
constant. -/
def updateShapeSpec (m : ModificationStatement) (kb vb : GBytes) (cv : Option GBytes) : Prop :=
  (∃ name, m.partition_key_restrictions =
    .conjunction [.binary_operator .EQ (.column_value .partition_key name) (.constant kb)]) ∧
  m.column_operations = [some (.constant vb)] ∧
  ((cv = none ∧ m.regular_conditions = []) ∨
   (∃ v, cv = some v ∧ m.regular_conditions = [⟨.EQ, some (.constant v)⟩]))

/-- An update statement is supported when it has some supported shape. -/
def updateSupportedSpec (m : ModificationStatement) : Prop :=
  ∃ kb vb cv, updateShapeSpec m kb vb cv

/-- A concrete modification statement with exactly one column assignment
whose assigned expression is a column reference (not a constant), no IF
condition, and a partition key restricted by a single equality to a
constant. -/
def nonConstantAssignmentStmt : ModificationStatement :=
  { partition_key_restrictions :=
      .conjunction [.binary_operator .EQ
        (.column_value .partition_key [107, 101, 121]) (.constant [107])],
    column_operations := [some (.column_value .regular_column valueColumnName)],
    regular_conditions := [] }

/-- A concrete modification statement that the compiler supports:
`UPDATE ... SET value = 'v' WHERE key = 'k'`. -/
def supportedUpdateStmt : ModificationStatement :=
  { partition_key_restrictions :=
      .conjunction [.binary_operator .EQ
        (.column_value .partition_key [107, 101, 121]) (.constant [107])],
    column_operations := [some (.constant [118])],
    regular_conditions := [] }

/-- The empty node state: empty k/v store, empty history, no schema, no
pending results. -/
def emptyNodeState : NodeState := ⟨[], [], [], []⟩

/-- **C3.** For every call of the state-ID generator with a non-zero
predecessor `P`, the embedded microsecond timestamp of the returned ID
equals `max now (micros P + 1)`, and the returned ID is strictly greater
than `P` in the timeuuid total order — for every wall-clock reading,
including clocks that moved backwards, repeat within a microsecond, or a
predecessor whose timestamp lies in the future. -/
theorem generate_group0_state_id_monotonic
    (now : Int) (randomTail : Nat) (P : StateId) (hP : P ≠ zeroStateId) :
    (generate_group0_state_id now randomTail P).micros = max now (P.micros + 1) ∧
    stateIdLt P (generate_group0_state_id now randomTail P) := by
  unfold generate_group0_state_id stateIdLt
  simp only [if_pos hP]
  by_cases h : now ≤ P.micros
  · simp only [if_pos h]
    exact ⟨by omega, Or.inl (by omega)⟩
  · simp only [if_neg h]
    exact ⟨by omega, Or.inl (by omega)⟩

/-- Witness for C3: a predecessor with timestamp in the future
(`now = 10 < micros P = 50`) still yields a strictly larger ID, with
timestamp `max 10 51 = 51`. -/
theorem generate_group0_state_id_monotonic_witness :
    (⟨50, 7⟩ : StateId) ≠ zeroStateId ∧
    ((generate_group0_state_id 10 3 ⟨50, 7⟩).micros = max 10 ((50 : Int) + 1) ∧
     stateIdLt ⟨50, 7⟩ (generate_group0_state_id 10 3 ⟨50, 7⟩)) :=
  ⟨by decide, generate_group0_state_id_monotonic 10 3 ⟨50, 7⟩ (by decide)⟩

/-- Applying a concatenated batch equals applying the two parts in
sequence. -/
theorem group0_apply_append (l1 l2 : List Group0Command) (st : NodeState) :
    group0_state_machine_apply st (l1 ++ l2) =
    group0_state_machine_apply (group0_state_machine_apply st l1) l2 := by
  induction l1 generalizing st with
  | nil => rfl
  | cons c rest ih =>
    simp only [List.cons_append, group0_state_machine_apply]
    exact ih (applyOne st c).1

/-- **C1.** For every batch `pre ++ cmd :: post` given to the
state-machine apply, if `cmd.prev_state_id` is present and differs from
the last state ID in the history table at the moment `cmd` is reached,
then `cmd` is skipped entirely: it changes nothing (no k/v write, no
history append, no stored query result, no write events) and the batch
behaves as if `cmd` were absent. -/
theorem apply_skips_state_id_mismatch
    (st : NodeState) (pre post : List Group0Command) (cmd : Group0Command) (p : StateId)
    (hprev : cmd.prev_state_id = some p)
    (hne : p ≠ lastStateId (group0_state_machine_apply st pre).history) :
    applyOne (group0_state_machine_apply st pre) cmd = (group0_state_machine_apply st pre, []) ∧
    group0_state_machine_apply st (pre ++ cmd :: post) =
      group0_state_machine_apply (group0_state_machine_apply st pre) post := by
  have h1 : applyOne (group0_state_machine_apply st pre) cmd =
      (group0_state_machine_apply st pre, []) := by
    unfold applyOne
    rw [hprev]
    simp [hne]
  refine ⟨h1, ?_⟩
  rw [group0_apply_append]
  show group0_state_machine_apply (applyOne (group0_state_machine_apply st pre) cmd).1 post = _
  rw [h1]

/-- Witness for C1: a command whose `prev_state_id` is `⟨1,1⟩` while the
history is empty (`last = zero ID`) leaves the empty state untouched. -/
theorem apply_skips_state_id_mismatch_witness :
    (⟨.schema_change [[3]], ⟨⟨2, 2⟩, 0, []⟩, some ⟨1, 1⟩, ⟨2, 2⟩, [], 0⟩ :
        Group0Command).prev_state_id = some ⟨1, 1⟩ ∧
    (⟨1, 1⟩ : StateId) ≠ lastStateId (group0_state_machine_apply emptyNodeState []).history ∧
    (applyOne (group0_state_machine_apply emptyNodeState [])
        ⟨.schema_change [[3]], ⟨⟨2, 2⟩, 0, []⟩, some ⟨1, 1⟩, ⟨2, 2⟩, [], 0⟩ =
        (group0_state_machine_apply emptyNodeState [], []) ∧
     group0_state_machine_apply emptyNodeState
        ([] ++ ⟨.schema_change [[3]], ⟨⟨2, 2⟩, 0, []⟩, some ⟨1, 1⟩, ⟨2, 2⟩, [], 0⟩ :: []) =
       group0_state_machine_apply (group0_state_machine_apply emptyNodeState []) []) :=
  ⟨rfl, by decide,
   apply_skips_state_id_mismatch emptyNodeState [] [] _ ⟨1, 1⟩ rfl (by decide)⟩

/-- Every write emitted by the k/v query engine is a k/v mutation (never
a history append). -/
theorem execute_group0_table_query_writes_kv (store : KvStore) (m : Int) (q : TableQuery) :
    ∀ e ∈ (execute_group0_table_query store m q).2.1, ∃ k c, e = WriteEvent.kvMutation k c := by
  intro e he
  cases q with
  | select_query key =>
    cases hl : kvLookup store key <;> simp [execute_group0_table_query, hl] at he
  | update_query key nv vc =>
    cases hl : kvLookup store key with
    | some cell =>
      by_cases hc : vc = none ∨ vc = some cell.value
      · simp [execute_group0_table_query, hl, hc] at he
        exact ⟨key, _, he⟩
      · simp [execute_group0_table_query, hl, hc] at he
    | none =>
      by_cases hc : vc = none
      · simp [execute_group0_table_query, hl, hc] at he
        exact ⟨key, _, he⟩
      · simp [execute_group0_table_query, hl, hc] at he

/-- **C4.** For every command that the state-machine apply does not skip
(no `prev_state_id`, or `prev_state_id` equal to the history's last ID),
the write trace of applying the command is the change's writes followed
by exactly the history append, and none of the change's writes is a
history append: the history append is the last write of the command. -/
theorem history_append_is_last_write
    (st : NodeState) (cmd : Group0Command)
    (h : cmd.prev_state_id = none ∨ cmd.prev_state_id = some (lastStateId st.history)) :
    (applyOne st cmd).2 =
      (applyChange st cmd).2 ++ [WriteEvent.historyAppend cmd.history_append.state_id] ∧
    ∀ e ∈ (applyChange st cmd).2, ∀ id, e ≠ WriteEvent.historyAppend id := by
  constructor
  · unfold applyOne
    rcases h with h | h <;> rw [h] <;> simp [applyAdmitted]
  · intro e he id
    unfold applyChange at he
    cases hc : cmd.change with
    | schema_change muts =>
      rw [hc] at he
      simp at he
      subst he
      simp
    | table_query q =>
      rw [hc] at he
      simp at he
      obtain ⟨k, c, rfl⟩ := execute_group0_table_query_writes_kv st.kv cmd.new_state_id.micros q e he
      simp

/-- Witness for C4: an unconditional k/v update command applied to the
empty state writes the k/v mutation and then, last, the history append. -/
theorem history_append_is_last_write_witness :
    ((⟨.table_query (.update_query [107] [49] none), ⟨⟨2, 2⟩, 0, []⟩, none, ⟨2, 2⟩, [], 0⟩ :
        Group0Command).prev_state_id = none ∨
     (⟨.table_query (.update_query [107] [49] none), ⟨⟨2, 2⟩, 0, []⟩, none, ⟨2, 2⟩, [], 0⟩ :
        Group0Command).prev_state_id = some (lastStateId emptyNodeState.history)) ∧
    ((applyOne emptyNodeState
        ⟨.table_query (.update_query [107] [49] none), ⟨⟨2, 2⟩, 0, []⟩, none, ⟨2, 2⟩, [], 0⟩).2 =
      (applyChange emptyNodeState
        ⟨.table_query (.update_query [107] [49] none), ⟨⟨2, 2⟩, 0, []⟩, none, ⟨2, 2⟩, [], 0⟩).2 ++
        [WriteEvent.historyAppend ⟨2, 2⟩] ∧
     ∀ e ∈ (applyChange emptyNodeState
        ⟨.table_query (.update_query [107] [49] none), ⟨⟨2, 2⟩, 0, []⟩, none, ⟨2, 2⟩, [], 0⟩).2,
       ∀ id, e ≠ WriteEvent.historyAppend id) :=
  ⟨Or.inl rfl,
   history_append_is_last_write emptyNodeState
     ⟨.table_query (.update_query [107] [49] none), ⟨⟨2, 2⟩, 0, []⟩, none, ⟨2, 2⟩, [], 0⟩
     (Or.inl rfl)⟩

/-- **C2.** For every guarded `add_entry` call whose retry loop ends with
the log reporting the command applied: `add_entry` returns success if and
only if the history table contains the command's new state ID, and when
that ID is absent (the command became a no-op due to a `prev_state_id`
mismatch) it raises `group0_concurrent_modification` instead. -/
theorem add_entry_success_iff_history_contains
    (responses : List LogResponse) (historyAfter : List StateId) (id : StateId)
    (happlied : submitRetryLoop responses = .success) :
    (add_entry responses historyAfter id = .ok ↔
      historyContains historyAfter id = true) ∧
    (historyContains historyAfter id = false →
      add_entry responses historyAfter id = .group0_concurrent_modification) := by
  unfold add_entry
  rw [happlied]
  constructor
  · by_cases h : historyContains historyAfter id <;> simp [h]
  · intro h
    simp [h]

/-- Witness for C2: a single applied response, a history containing only
`⟨5,1⟩`, and a command ID `⟨7,2⟩` absent from it: the call raises the
concurrent-modification error, and success is equivalent to membership. -/
theorem add_entry_success_iff_history_contains_witness :
    submitRetryLoop [.applied] = .success ∧
    ((add_entry [.applied] [⟨5, 1⟩] ⟨7, 2⟩ = .ok ↔
       historyContains [⟨5, 1⟩] ⟨7, 2⟩ = true) ∧
     (historyContains [⟨5, 1⟩] ⟨7, 2⟩ = false →
       add_entry [.applied] [⟨5, 1⟩] ⟨7, 2⟩ = .group0_concurrent_modification)) :=
  ⟨rfl, add_entry_success_iff_history_contains [.applied] [⟨5, 1⟩] ⟨7, 2⟩ rfl⟩

/-- The retry loop never terminates by surfacing a retryable error. -/
theorem submitRetryLoop_no_retryable_surface (rs : List LogResponse) :
    submitRetryLoop rs ≠ .surfaced .dropped_entry ∧
    submitRetryLoop rs ≠ .surfaced .commit_status_unknown := by
  induction rs with
  | nil => simp [submitRetryLoop]
  | cons r rest ih =>
    cases r with
    | applied => simp [submitRetryLoop]
    | failed e => cases e <;> simp [submitRetryLoop] <;> exact ih

/-- **C5.** For every submission (guarded `add_entry` and
`add_entry_unguarded`): a `dropped_entry` or `commit_status_unknown`
response makes the loop retry the same command, and neither error is ever
surfaced to the caller; a `not_a_leader` response and every other log
error terminate the loop and propagate to the caller. -/
theorem submission_retry_policy :
    (∀ rest, submitRetryLoop (.failed .dropped_entry :: rest) = submitRetryLoop rest) ∧
    (∀ rest, submitRetryLoop (.failed .commit_status_unknown :: rest) = submitRetryLoop rest) ∧
    (∀ rest, submitRetryLoop (.failed .not_a_leader :: rest) =
      .surfaced .not_a_leader) ∧
    (∀ e rest, submitRetryLoop (.failed (.other e) :: rest) = .surfaced (.other e)) ∧
    (∀ rs historyAfter id,
      add_entry rs historyAfter id ≠ .raftFailure .dropped_entry ∧
      add_entry rs historyAfter id ≠ .raftFailure .commit_status_unknown) ∧
    (∀ rs, add_entry_unguarded rs ≠ .raftFailure .dropped_entry ∧
           add_entry_unguarded rs ≠ .raftFailure .commit_status_unknown) ∧
    (∀ rs historyAfter id e, submitRetryLoop rs = .surfaced e →
      add_entry rs historyAfter id = .raftFailure e) ∧
    (∀ rs e, submitRetryLoop rs = .surfaced e → add_entry_unguarded rs = .raftFailure e) := by
  refine ⟨fun rest => rfl, fun rest => rfl, fun rest => rfl, fun e rest => rfl, ?_, ?_, ?_, ?_⟩
  · intro rs historyAfter id
    have hh := submitRetryLoop_no_retryable_surface rs
    unfold add_entry
    cases h : submitRetryLoop rs with
    | success => by_cases hc : historyContains historyAfter id <;> simp [hc]
    | surfaced e =>
      rw [h] at hh
      constructor <;> intro hco <;> simp only [AddEntryOutcome.raftFailure.injEq] at hco <;>
        subst hco
      · exact hh.1 rfl
      · exact hh.2 rfl
    | stillRetrying => simp
  · intro rs
    have hh := submitRetryLoop_no_retryable_surface rs
    unfold add_entry_unguarded
    cases h : submitRetryLoop rs with
    | success => simp
    | surfaced e =>
      rw [h] at hh
      constructor <;> intro hco <;> simp only [AddEntryOutcome.raftFailure.injEq] at hco <;>
        subst hco
      · exact hh.1 rfl
      · exact hh.2 rfl
    | stillRetrying => simp
  · intro rs historyAfter id e h
    unfold add_entry
    rw [h]
  · intro rs e h
    unfold add_entry_unguarded
    rw [h]

/-- Counterexample for C6: with a preexisting row `k=[107] → v0=[48]`
and the matching conditional update `update(k, [49], if value=[48])`, the
query result is the `none` variant — it does not report `applied` nor the
previous value, contrary to the claim. -/
theorem conditional_update_result_counterexample :
    (execute_group0_table_query [([107], ⟨[48], 5⟩)] 10
        (.update_query [107] [49] (some [48]))).2.2 = .query_result_none ∧
    (execute_group0_table_query [([107], ⟨[48], 5⟩)] 10
        (.update_query [107] [49] (some [48]))).2.2 ≠
      .query_result_conditional_update true (some [48]) := by
  exact ⟨by decide, by decide⟩

/-- **C6 (amended).** For every conditional update
`update(key, new_value, value_condition = V)` executed by the k/v query
engine: the new value is written if and only if the partition exists and
the current value equals `V` (an absent partition with a condition set
skips the write); the query result is the `none` variant and reports
neither `applied` nor the previous value. -/
theorem conditional_update_write_semantics
    (store : KvStore) (key new_value V : GBytes) (m : Int) :
    (∀ cell, kvLookup store key = some cell →
      (if V = cell.value then
        execute_group0_table_query store m (.update_query key new_value (some V)) =
          (kvInsert store key ⟨new_value, max m (cell.ts + 1)⟩,
           [.kvMutation key ⟨new_value, max m (cell.ts + 1)⟩], .query_result_none)
       else
        execute_group0_table_query store m (.update_query key new_value (some V)) =
          (store, [], .query_result_none))) ∧
    (kvLookup store key = none →
      execute_group0_table_query store m (.update_query key new_value (some V)) =
        (store, [], .query_result_none)) := by
  constructor
  · intro cell hl
    by_cases hv : V = cell.value
    · simp [hv, execute_group0_table_query, hl]
    · simp [hv, execute_group0_table_query, hl]
  · intro hl
    simp [execute_group0_table_query, hl]

/-- Witness for C6 (amended): with row `[107] → ([48], ts 5)` present and
`V = [48]` matching, the update is applied with timestamp
`max 10 6 = 10`; instantiated directly from the theorem. -/
theorem conditional_update_write_semantics_witness :
    (∀ cell, kvLookup [([107], ⟨[48], 5⟩)] [107] = some cell →
      (if [48] = cell.value then
        execute_group0_table_query [([107], ⟨[48], 5⟩)] 10
            (.update_query [107] [49] (some [48])) =
          (kvInsert [([107], ⟨[48], 5⟩)] [107] ⟨[49], max 10 (cell.ts + 1)⟩,
           [.kvMutation [107] ⟨[49], max 10 (cell.ts + 1)⟩], .query_result_none)
       else
        execute_group0_table_query [([107], ⟨[48], 5⟩)] 10
            (.update_query [107] [49] (some [48])) =
          ([([107], ⟨[48], 5⟩)], [], .query_result_none))) ∧
    (kvLookup [([107], ⟨[48], 5⟩)] [107] = none →
      execute_group0_table_query [([107], ⟨[48], 5⟩)] 10
          (.update_query [107] [49] (some [48])) =
        ([([107], ⟨[48], 5⟩)], [], .query_result_none)) :=
  conditional_update_write_semantics [([107], ⟨[48], 5⟩)] [107] [49] [48] 10

/-- **C7.** For every unconditional update applied by the k/v query
engine on a key whose cell already exists, the write timestamp of the new
cell equals `max (micros new_state_id) (existing_ts + 1)`; when no cell
exists, it equals `micros new_state_id`; in both cases the write
timestamp is at least the microsecond component of `new_state_id`. -/
theorem unconditional_update_write_timestamp
    (store : KvStore) (key new_value : GBytes) (m : Int) :
    (∀ cell, kvLookup store key = some cell →
      (execute_group0_table_query store m (.update_query key new_value none)).2.1 =
        [.kvMutation key ⟨new_value, max m (cell.ts + 1)⟩] ∧
      m ≤ max m (cell.ts + 1)) ∧
    (kvLookup store key = none →
      (execute_group0_table_query store m (.update_query key new_value none)).2.1 =
        [.kvMutation key ⟨new_value, m⟩]) := by
  constructor
  · intro cell hl
    constructor
    · simp [execute_group0_table_query, hl]
    · exact le_max_left m (cell.ts + 1)
  · intro hl
    simp [execute_group0_table_query, hl]

/-- Witness for C7: instantiated at a store holding `[107] → ([48], ts 5)`
and at the empty store. -/
theorem unconditional_update_write_timestamp_witness :
    ((∀ cell, kvLookup [([107], ⟨[48], 5⟩)] [107] = some cell →
      (execute_group0_table_query [([107], ⟨[48], 5⟩)] 3
          (.update_query [107] [49] none)).2.1 =
        [.kvMutation [107] ⟨[49], max 3 (cell.ts + 1)⟩] ∧
      (3 : Int) ≤ max 3 (cell.ts + 1)) ∧
    (kvLookup [([107], ⟨[48], 5⟩)] [107] = none →
      (execute_group0_table_query [([107], ⟨[48], 5⟩)] 3
          (.update_query [107] [49] none)).2.1 =
        [.kvMutation [107] ⟨[49], 3⟩])) :=
  unconditional_update_write_timestamp [([107], ⟨[48], 5⟩)] [107] [49] 3

/-- Integer encoding round-trips. -/
theorem decodeInt_encodeInt (i : Int) (rest : List Nat) :
    decodeInt (encodeInt i ++ rest) = some (i, rest) := by
  cases i <;> rfl

/-- Fixed-length byte reads round-trip. -/
theorem decodeBytesAux_self (b : GBytes) (rest : List Nat) :
    decodeBytesAux b.length (b ++ rest) = some (b, rest) := by
  induction b with
  | nil => rfl
  | cons x xs ih => simp [decodeBytesAux, ih]

/-- Byte-string encoding round-trips. -/
theorem decodeBytes_encodeBytes (b : GBytes) (rest : List Nat) :
    decodeBytes (encodeBytes b ++ rest) = some (b, rest) := by
  simp [encodeBytes, decodeBytes, decodeBytesAux_self]

/-- State-ID encoding round-trips. -/
theorem decodeStateId_encodeStateId (s : StateId) (rest : List Nat) :
    decodeStateId (encodeStateId s ++ rest) = some (s, rest) := by
  unfold encodeStateId decodeStateId
  rw [List.append_assoc, decodeInt_encodeInt, List.singleton_append]

/-- Optional state-ID encoding round-trips. -/
theorem decodeOptStateId_encodeOptStateId (o : Option StateId) (rest : List Nat) :
    decodeOptStateId (encodeOptStateId o ++ rest) = some (o, rest) := by
  cases o with
  | none => rfl
  | some s => simp [encodeOptStateId, decodeOptStateId, decodeStateId_encodeStateId]

/-- Optional byte-string encoding round-trips. -/
theorem decodeOptBytes_encodeOptBytes (o : Option GBytes) (rest : List Nat) :
    decodeOptBytes (encodeOptBytes o ++ rest) = some (o, rest) := by
  cases o with
  | none => rfl
  | some b => simp [encodeOptBytes, decodeOptBytes, decodeBytes_encodeBytes]

/-- K/v query encoding round-trips. -/
theorem decodeTableQuery_encodeTableQuery (q : TableQuery) (rest : List Nat) :
    decodeTableQuery (encodeTableQuery q ++ rest) = some (q, rest) := by
  cases q with
  | select_query key =>
    simp [encodeTableQuery, decodeTableQuery, decodeBytes_encodeBytes]
  | update_query key nv vc =>
    simp [encodeTableQuery, decodeTableQuery, List.append_assoc,
      decodeBytes_encodeBytes, decodeOptBytes_encodeOptBytes]

/-- Fixed-count byte-string list reads round-trip. -/
theorem decodeBytesListAux_self (l : List GBytes) (rest : List Nat) :
    decodeBytesListAux l.length ((l.map encodeBytes).flatten ++ rest) = some (l, rest) := by
  induction l with
  | nil => rfl
  | cons b bs ih =>
    simp only [List.map_cons, List.flatten_cons, List.length_cons, List.append_assoc]
    simp [decodeBytesListAux, decodeBytes_encodeBytes, ih]

/-- Byte-string list encoding round-trips. -/
theorem decodeBytesList_encodeBytesList (l : List GBytes) (rest : List Nat) :
    decodeBytesList (encodeBytesList l ++ rest) = some (l, rest) := by
  simp [encodeBytesList, decodeBytesList, decodeBytesListAux_self]

/-- Change-variant encoding round-trips. -/
theorem decodeChange_encodeChange (c : Change) (rest : List Nat) :
    decodeChange (encodeChange c ++ rest) = some (c, rest) := by
  cases c with
  | schema_change muts =>
    simp [encodeChange, decodeChange, decodeBytesList_encodeBytesList]
  | table_query q =>
    simp [encodeChange, decodeChange, decodeTableQuery_encodeTableQuery]

/-- History-mutation encoding round-trips. -/
theorem decodeHistoryMutation_encodeHistoryMutation (h : HistoryMutation) (rest : List Nat) :
    decodeHistoryMutation (encodeHistoryMutation h ++ rest) = some (h, rest) := by
  unfold encodeHistoryMutation decodeHistoryMutation
  simp only [List.append_assoc, decodeStateId_encodeStateId, decodeInt_encodeInt,
    decodeBytes_encodeBytes]

/-- **C8.** Serializing any command to the log's payload format and then
deserializing it yields the identical command: change payload,
history-append mutation, `prev_state_id`, `new_state_id`, creator
address and creator ID are all restored. -/
theorem serialize_deserialize_command_id (c : Group0Command) :
    deserializeCommand (serializeCommand c) = some c := by
  obtain ⟨chng, ha, prev, nsid, addr, cid⟩ := c
  unfold serializeCommand deserializeCommand
  simp only [List.append_assoc]
  rw [decodeChange_encodeChange]
  simp only [decodeHistoryMutation_encodeHistoryMutation, decodeOptStateId_encodeOptStateId,
    decodeStateId_encodeStateId, decodeBytes_encodeBytes]

/-- `get_key` either accepts exactly the single-equality-on-constant
shape (returning its constant), or raises the unsupported-operation
error on every other restriction. -/
theorem get_key_cases (e : CqlExpr) :
    (∃ name kb, e = CqlExpr.conjunction [CqlExpr.binary_operator .EQ
        (.column_value .partition_key name) (.constant kb)] ∧ get_key e = .ok kb) ∨
    (get_key e = .error .unsupported_operation ∧
     ∀ name kb, e ≠ CqlExpr.conjunction [CqlExpr.binary_operator .EQ
        (.column_value .partition_key name) (.constant kb)]) := by
  cases e with
  | conjunction children =>
    rcases children with _ | ⟨child, _ | ⟨c2, cs⟩⟩
    · right; exact ⟨rfl, fun name kb h => by simp at h⟩
    · cases child with
      | binary_operator op lhs rhs =>
        cases lhs with
        | column_value kind nm =>
          cases rhs with
          | constant v =>
            by_cases hko : kind = ColumnKind.partition_key ∧ op = Oper.EQ
            · left
              obtain ⟨hk, ho⟩ := hko
              subst hk; subst ho
              exact ⟨nm, v, rfl, by simp [get_key]⟩
            · right
              refine ⟨by simp [get_key, hko], fun name kb h => ?_⟩
              simp only [CqlExpr.conjunction.injEq, List.cons.injEq,
                CqlExpr.binary_operator.injEq, CqlExpr.column_value.injEq,
                CqlExpr.constant.injEq, and_true] at h
              exact hko ⟨by tauto, by tauto⟩
          | conjunction cs2 => right; exact ⟨rfl, fun name kb h => by simp at h⟩
          | binary_operator o2 l2 r2 => right; exact ⟨rfl, fun name kb h => by simp at h⟩
          | column_value k2 n2 => right; exact ⟨rfl, fun name kb h => by simp at h⟩
          | untyped i => right; exact ⟨rfl, fun name kb h => by simp at h⟩
        | conjunction cs2 => right; exact ⟨rfl, fun name kb h => by simp at h⟩
        | binary_operator o2 l2 r2 => right; exact ⟨rfl, fun name kb h => by simp at h⟩
        | constant v2 => right; exact ⟨rfl, fun name kb h => by simp at h⟩
        | untyped i => right; exact ⟨rfl, fun name kb h => by simp at h⟩
      | conjunction cs2 => right; exact ⟨rfl, fun name kb h => by simp at h⟩
      | column_value k2 n2 => right; exact ⟨rfl, fun name kb h => by simp at h⟩
      | constant v2 => right; exact ⟨rfl, fun name kb h => by simp at h⟩
      | untyped i => right; exact ⟨rfl, fun name kb h => by simp at h⟩
    · right
      refine ⟨?_, fun name kb h => by simp at h⟩
      unfold get_key
      split
      · rename_i heq
        simp at heq
      · rfl
  | binary_operator op lhs rhs => right; exact ⟨rfl, fun name kb h => by simp at h⟩
  | column_value kind nm => right; exact ⟨rfl, fun name kb h => by simp at h⟩
  | constant v => right; exact ⟨rfl, fun name kb h => by simp at h⟩
  | untyped i => right; exact ⟨rfl, fun name kb h => by simp at h⟩

/-- `get_new_value` either accepts exactly one constant column
assignment (returning its constant), or raises the
unsupported-operation error. -/
theorem get_new_value_cases (ops : List (Option CqlExpr)) :
    (∃ vb, ops = [some (.constant vb)] ∧ get_new_value ops = .ok vb) ∨
    (get_new_value ops = .error .unsupported_operation ∧
     ∀ vb, ops ≠ [some (.constant vb)]) := by
  rcases ops with _ | ⟨o, _ | ⟨o2, os⟩⟩
  · right; exact ⟨rfl, fun vb h => by simp at h⟩
  · rcases o with _ | e
    · right; exact ⟨rfl, fun vb h => by simp at h⟩
    · cases e with
      | constant v => left; exact ⟨v, rfl, rfl⟩
      | conjunction cs => right; exact ⟨rfl, fun vb h => by simp at h⟩
      | binary_operator o2 l2 r2 => right; exact ⟨rfl, fun vb h => by simp at h⟩
      | column_value k2 n2 => right; exact ⟨rfl, fun vb h => by simp at h⟩
      | untyped i => right; exact ⟨rfl, fun vb h => by simp at h⟩
  · right
    refine ⟨?_, fun vb h => by simp at h⟩
    unfold get_new_value
    split
    · rename_i heq
      simp at heq
    · rfl

/-- `get_value_condition` accepts no condition (unconditional) or exactly
one `IF value = constant` condition, and raises the
unsupported-operation error otherwise. -/
theorem get_value_condition_cases (conds : List CqlCondition) :
    (conds = [] ∧ get_value_condition conds = .ok none) ∨
    (∃ v, conds = [⟨.EQ, some (.constant v)⟩] ∧
      get_value_condition conds = .ok (some v)) ∨
    (get_value_condition conds = .error .unsupported_operation ∧
     conds ≠ [] ∧ ∀ v, conds ≠ [⟨.EQ, some (.constant v)⟩]) := by
  rcases conds with _ | ⟨c, _ | ⟨c2, cs⟩⟩
  · left; exact ⟨rfl, rfl⟩
  · obtain ⟨op, val⟩ := c
    rcases val with _ | e
    · right; right; exact ⟨rfl, by simp, fun v h => by simp at h⟩
    · cases e with
      | constant v =>
        cases op with
        | EQ => right; left; exact ⟨v, rfl, rfl⟩
        | NEQ => right; right; exact ⟨rfl, by simp, fun v h => by simp at h⟩
        | LT => right; right; exact ⟨rfl, by simp, fun v h => by simp at h⟩
        | GT => right; right; exact ⟨rfl, by simp, fun v h => by simp at h⟩
      | conjunction cs2 => right; right; exact ⟨rfl, by simp, fun v h => by simp at h⟩
      | binary_operator o2 l2 r2 =>
        right; right; exact ⟨rfl, by simp, fun v h => by simp at h⟩
      | column_value k2 n2 => right; right; exact ⟨rfl, by simp, fun v h => by simp at h⟩
      | untyped i => right; right; exact ⟨rfl, by simp, fun v h => by simp at h⟩
  · right; right; exact ⟨rfl, by simp, fun v h => by simp at h⟩

/-- A modification statement of supported shape compiles to the
update query with exactly the stated key, value and condition. -/
theorem compile_of_shape (m : ModificationStatement) (kb vb : GBytes) (cv : Option GBytes)
    (h : updateShapeSpec m kb vb cv) :
    compile (.modificationStmt m) = .ok (.update_query kb vb cv) := by
  obtain ⟨pk, ops, conds⟩ := m
  obtain ⟨⟨n, hpk⟩, hops, hc⟩ := h
  dsimp only at hpk hops hc
  subst hpk; subst hops
  rcases hc with ⟨rfl, hcnd⟩ | ⟨v, rfl, hcnd⟩ <;> subst hcnd <;>
    simp [compile, get_key, get_new_value, get_value_condition]

/-- `compile` on a modification statement: either the statement has a
supported shape and compiles to the corresponding update query, or it
has no supported shape and raises the unsupported-operation error. -/
theorem compile_update_cases (m : ModificationStatement) :
    (∃ kb vb cv, updateShapeSpec m kb vb cv ∧
      compile (.modificationStmt m) = .ok (.update_query kb vb cv)) ∨
    (¬ updateSupportedSpec m ∧
      compile (.modificationStmt m) = .error .unsupported_operation) := by
  obtain ⟨pk, ops, conds⟩ := m
  rcases get_key_cases pk with ⟨name, kb, hpk, hk⟩ | ⟨hk, hnk⟩
  · rcases get_new_value_cases ops with ⟨vb, hops, hv⟩ | ⟨hv, hnv⟩
    · rcases get_value_condition_cases conds with ⟨hc, hcv⟩ | ⟨v, hc, hcv⟩ | ⟨hcv, hcne, hncv⟩
      · left
        exact ⟨kb, vb, none, ⟨⟨name, hpk⟩, hops, Or.inl ⟨rfl, hc⟩⟩,
          by simp [compile, hk, hv, hcv]⟩
      · left
        exact ⟨kb, vb, some v, ⟨⟨name, hpk⟩, hops, Or.inr ⟨v, rfl, hc⟩⟩,
          by simp [compile, hk, hv, hcv]⟩
      · right
        refine ⟨?_, by simp [compile, hk, hv, hcv]⟩
        rintro ⟨kb', vb', cv', ⟨hn', hops', hcond'⟩⟩
        rcases hcond' with ⟨_, hc⟩ | ⟨v, _, hc⟩
        · exact hcne hc
        · exact hncv v hc
    · right
      refine ⟨?_, by simp [compile, hk, hv]⟩
      rintro ⟨kb', vb', cv', ⟨hn', hops', hcond'⟩⟩
      exact hnv vb' hops'
  · right
    refine ⟨?_, by simp [compile, hk]⟩
    rintro ⟨kb', vb', cv', ⟨⟨name', hpk'⟩, hops', hcond'⟩⟩
    exact hnk name' kb' hpk'

/-- **C9 (amended).** For every CQL update statement on the group-0 k/v
store: compilation succeeds if and only if the statement has exactly one
column assignment whose assigned expression is a constant, at most one
IF condition which must be an equality on a constant value, and a
partition key restricted by a single equality of a partition-key column
to a constant; a statement of this supported shape compiles to the
update query with the stated key, new value and optional condition, and
every other statement fails with the unsupported-operation
invalid-request error. -/
theorem update_compile_supported_shape (m : ModificationStatement) :
    ((∃ q, compile (.modificationStmt m) = .ok q) ↔ updateSupportedSpec m) ∧
    (∀ kb vb cv, updateShapeSpec m kb vb cv →
      compile (.modificationStmt m) = .ok (.update_query kb vb cv)) ∧
    (¬ updateSupportedSpec m →
      compile (.modificationStmt m) = .error .unsupported_operation) := by
  refine ⟨⟨?_, ?_⟩, ?_, ?_⟩
  · rintro ⟨q, hq⟩
    rcases compile_update_cases m with ⟨kb, vb, cv, hsh, hok⟩ | ⟨hns, herr⟩
    · exact ⟨kb, vb, cv, hsh⟩
    · rw [herr] at hq
      exact absurd hq (by simp)
  · rintro ⟨kb, vb, cv, hsh⟩
    exact ⟨_, compile_of_shape m kb vb cv hsh⟩
  · exact fun kb vb cv h => compile_of_shape m kb vb cv h
  · intro hns
    rcases compile_update_cases m with ⟨kb, vb, cv, hsh, hok⟩ | ⟨_, herr⟩
    · exact absurd ⟨kb, vb, cv, hsh⟩ hns
    · exact herr

/-- Witness for C9 (amended): the concrete supported statement
`UPDATE ... SET value = [118] WHERE key = [107]` compiles to the stated
update query, via the theorem. -/
theorem update_compile_supported_shape_witness :
    compile (.modificationStmt supportedUpdateStmt) =
      .ok (.update_query [107] [118] none) :=
  (update_compile_supported_shape supportedUpdateStmt).2.1 [107] [118] none
    ⟨⟨[107, 101, 121], rfl⟩, rfl, Or.inl ⟨rfl, rfl⟩⟩

/-- Counterexample for C9: a statement with exactly one column
assignment (so not "more than one"), whose assigned expression is a
column reference rather than a constant, no IF condition, and a
partition key restricted by a single equality to a constant, still fails
to compile — the claim's "otherwise it compiles" is false. -/
theorem compile_nonconstant_assignment_counterexample :
    compile (.modificationStmt nonConstantAssignmentStmt) =
      .error .unsupported_operation ∧
    nonConstantAssignmentStmt.column_operations.length = 1 ∧
    nonConstantAssignmentStmt.regular_conditions = [] ∧
    get_key nonConstantAssignmentStmt.partition_key_restrictions = .ok [107] :=
  ⟨rfl, rfl, rfl, rfl⟩

/-- **C10.** For every CQL statement targeting the group-0 k/v store,
the execute entry point never returns a result; when the statement
compiles, it throws the invalid-request "executing queries on
group0_kv_store is currently not implemented" error. -/
theorem execute_not_implemented (stmt : CqlStatement) :
    (∀ u, group0_tables_execute stmt ≠ .ok u) ∧
    (∀ q, compile stmt = .ok q →
      group0_tables_execute stmt = .error .not_implemented) := by
  unfold group0_tables_execute
  cases h : compile stmt with
  | ok q => exact ⟨fun u => by simp, fun q2 _ => rfl⟩
  | error e => exact ⟨fun u => by simp, fun q2 hq => absurd hq (by simp)⟩

/-- Witness for C10: the concrete supported update statement compiles,
and executing it throws the not-implemented invalid-request error. -/
theorem execute_not_implemented_witness :
    group0_tables_execute (.modificationStmt supportedUpdateStmt) =
      .error .not_implemented :=
  (execute_not_implemented (.modificationStmt supportedUpdateStmt)).2
    (.update_query [107] [118] none) rfl

/-- Witness for C5: a dropped entry is retried (the loop on
`[dropped_entry, applied]` behaves as on `[applied]`), and a
`not_a_leader` response is surfaced by the unguarded submission. -/
theorem submission_retry_policy_witness :
    submitRetryLoop [.failed .dropped_entry, .applied] = submitRetryLoop [.applied] ∧
    add_entry_unguarded [.failed .not_a_leader] = .raftFailure .not_a_leader :=
  ⟨submission_retry_policy.1 [.applied],
   submission_retry_policy.2.2.2.2.2.2.2 [.failed .not_a_leader] .not_a_leader rfl⟩

/-- Witness for C8: a concrete select command round-trips through the
payload encoding. -/
theorem serialize_deserialize_command_id_witness :
    deserializeCommand (serializeCommand
      ⟨.table_query (.select_query [107]), ⟨⟨1, 1⟩, 0, []⟩, none, ⟨1, 1⟩, [], 0⟩) =
    some ⟨.table_query (.select_query [107]), ⟨⟨1, 1⟩, 0, []⟩, none, ⟨1, 1⟩, [], 0⟩ :=
  serialize_deserialize_command_id
    ⟨.table_query (.select_query [107]), ⟨⟨1, 1⟩, 0, []⟩, none, ⟨1, 1⟩, [], 0⟩
